import Mathlib

/-!
Verification of the MeDUSA tremor signal-processing pipeline
(`src/lambda_functions/process_sensor_data.py`) against its
natural-language specification.

Conventions of the embedding:
* timestamps, sampling rates, and filter cutoffs are exact rationals (`ℚ`);
* signal values (accelerometer magnitudes, filtered samples, FFT magnitudes,
  features) are exact reals (`ℝ`) so that `np.sqrt` is modelled by `Real.sqrt`;
* a Python value on which `float(...)` succeeds is `FVal.num q`, one on which
  it raises `ValueError`/`TypeError` is `FVal.bad`; a missing attribute is
  `Option.none`;
* code that can raise an exception which escapes to the outer handler is
  modelled in `Except String`; exceptions that the source catches per window
  are resolved by the same dispatch the source uses.
-/

/-- A DynamoDB attribute value destined for `float(...)`: either a value the
conversion accepts, or one on which it raises `ValueError`/`TypeError`. -/
inductive FVal where
  | num (q : ℚ)
  | bad
deriving DecidableEq, Repr

/-- One raw sensor item as returned by the `medusa-sensor-data` query in
`lambda_handler` (lines 196-239).  `timestampMs` is the table's sort key, so it
is always present and numeric.  The three supported layouts are a
pre-computed `magnitude`, a single `accel_x`/`accel_y`/`accel_z` triplet, and
batched axis arrays (`x`/`y`/`z`, with `accelerometer_x` etc. as the legacy
spelling).  `patient_id` is the (possibly outdated) attribute stored with the
raw sample. -/
structure Item where
  timestampMs : ℚ
  magnitude : Option FVal := none
  accel_x : Option FVal := none
  accel_y : Option FVal := none
  accel_z : Option FVal := none
  xs : Option (List ℚ) := none
  ys : Option (List ℚ) := none
  zs : Option (List ℚ) := none
  accelerometer_x : Option (List ℚ) := none
  accelerometer_y : Option (List ℚ) := none
  accelerometer_z : Option (List ℚ) := none
  patient_id : Option String := none
deriving DecidableEq, Repr

/-- Python truthiness of an optional string (`None` and `""` are falsy). -/
def strTruthy : Option String → Bool
  | none => false
  | some s => !s.isEmpty

/-- Outcome of `devices_table.get_item` in `lambda_handler` (lines 145-151):
the registry returned an item (whose `patientId` attribute may be absent),
returned no item, or the call raised. -/
inductive LookupOutcome where
  | item (patientId : Option String)
  | noItem
  | error
deriving DecidableEq, Repr

/-- Lines 144-151: the device-registry ownership resolution.  When the event's
`patient_id` is falsy or the literal `"UNASSIGNED"`, the handler looks the
device up; a returned item overwrites `patient_id` with its `patientId`
attribute (possibly `None`), a missing item or a raised exception leaves
`patient_id` unchanged. -/
def resolvePatient (eventPid : Option String) (lookup : LookupOutcome) :
    Option String :=
  if !strTruthy eventPid || eventPid == some "UNASSIGNED" then
    match lookup with
    | .item pid? => pid?
    | .noItem => eventPid
    | .error => eventPid
  else eventPid

/-- Line 276: `final_patient_id = patient_id if patient_id else
items[0].get('patient_id', 'UNASSIGNED')`. -/
def finalPatientId (pid : Option String) (firstItemPid : Option String) :
    String :=
  if strTruthy pid then pid.getD "" else firstItemPid.getD "UNASSIGNED"

/-- Lines 198-239: normalization of one raw item into canonical
`(timestamp in seconds, magnitude)` samples.  A pre-computed `magnitude` that
parses is used directly (`continue`); one that fails to parse falls through to
the triplet branch (`pass`).  The triplet branch evaluates
`float(item['accel_x'])`, `float(item['accel_y'])`, `float(item['accel_z'])`
left to right inside `except (ValueError, TypeError)`: a parse failure on a
value drops the record (`continue`) and stops evaluation there, while a key
missing at the point it is looked up raises `KeyError`, which no per-item
handler catches.  So an unparseable `accel_x` hides a missing `accel_y`
(record dropped), but a numeric `accel_x` with `accel_y` absent aborts.  In
the batched branch the record contributes one sample per zipped element, and
contributes nothing when any axis list is missing or empty. -/
noncomputable def normalizeItem (it : Item) : Except String (List (ℚ × ℝ)) :=
  let ts : ℚ := it.timestampMs / 1000
  let triplet : Except String (List (ℚ × ℝ)) :=
    match it.accel_x with
    | some .bad => .ok []
    | some (.num x) =>
      match it.accel_y with
      | none => .error "KeyError: accel_y"
      | some .bad => .ok []
      | some (.num y) =>
        match it.accel_z with
        | none => .error "KeyError: accel_z"
        | some .bad => .ok []
        | some (.num z) =>
          .ok [(ts, Real.sqrt ((x : ℝ) ^ 2 + (y : ℝ) ^ 2 + (z : ℝ) ^ 2))]
    | none =>
      let xv := it.xs.getD (it.accelerometer_x.getD [])
      let yv := it.ys.getD (it.accelerometer_y.getD [])
      let zv := it.zs.getD (it.accelerometer_z.getD [])
      if xv.isEmpty || yv.isEmpty || zv.isEmpty then .ok []
      else
        .ok (((xv.zip yv).zip zv).map fun p =>
          (ts, Real.sqrt ((p.1.1 : ℝ) ^ 2 + (p.1.2 : ℝ) ^ 2 + (p.2 : ℝ) ^ 2)))
  match it.magnitude with
  | some (.num q) => .ok [(ts, (q : ℝ))]
  | some .bad => triplet
  | none => triplet

/-- The whole extraction loop (lines 196-239): items are normalized in order;
an uncaught per-item exception aborts the whole batch. -/
noncomputable def normalizeAll : List Item → Except String (List (ℚ × ℝ))
  | [] => .ok []
  | it :: rest => do
    let s ← normalizeItem it
    let r ← normalizeAll rest
    .ok (s ++ r)

/-- Lines 242-247: the effective sampling rate is `count / duration` over the
whole extracted series when it has more than one sample and a positive
duration, and otherwise the event's `sampling_rate` (default 100). -/
def actualFs (defaultFs : ℚ) (series : List (ℚ × ℝ)) : ℚ :=
  if 1 < series.length then
    let dur := (series.getLastD (0, 0)).1 - (series.headD (0, 0)).1
    if 0 < dur then series.length / dur else defaultFs
  else defaultFs

/-- Lines 264-267: the filter cutoff is 12 Hz, reduced to `fs / 2.1` (but at
least 1 Hz) when the effective sampling rate is below 25 Hz. -/
def effectiveCutoff (fs : ℚ) : ℚ :=
  if fs < 25 then
    let c := fs / (21 / 10)
    if c < 1 then 1 else c
  else 12

/-- Line 260: `time_series_data.sort(key=lambda x: x[0])`.  Python's sort is
stable; a stable insertion sort by timestamp has the same result. -/
def insertByTs {α : Type} (p : ℚ × α) : List (ℚ × α) → List (ℚ × α)
  | [] => [p]
  | q :: rest => if q.1 < p.1 then q :: insertByTs p rest else p :: q :: rest

/-- Stable sort of the canonical series by timestamp (line 260). -/
def sortByTs {α : Type} : List (ℚ × α) → List (ℚ × α)
  | [] => []
  | p :: rest => insertByTs p (sortByTs rest)

/-- Number of iterations of the sliding-window loop (line 300):
`while current_window_start + 5.0 <= data_end_time + 1.0`, starting at
`data_start_time` and stepping by `1.0`, runs for
`k = 0, 1, ..., ⌊tEnd + 1 - 5 - t0⌋`. -/
def windowCount (t0 tEnd : ℚ) : ℕ :=
  if tEnd + 1 - 5 - t0 < 0 then 0 else (⌊tEnd + 1 - 5 - t0⌋).toNat + 1

/-- Lines 283-307 and 338-359 (scheduling skeleton): slide a 5-second window
by 1-second steps from the first to the last timestamp; for each position
keep the magnitudes of the samples with `start <= ts < end`, and emit the pair
`(window end, contained samples)` only when at least one sample is present. -/
def windowSamples {α : Type} (series : List (ℚ × α)) (s : ℚ) : List α :=
  (series.filter fun q => s ≤ q.1 && q.1 < s + 5).map Prod.snd

/-- Lines 283-307 and 338-359 (scheduling skeleton, continued): one emitted
`(window end, contained samples)` pair per loop position whose window holds
at least one sample. -/
def windowSlices {α : Type} (series : List (ℚ × α)) : List (ℚ × List α) :=
  match series with
  | [] => []
  | p :: rest =>
    (List.range (windowCount p.1
        (((p :: rest).getLast (List.cons_ne_nil p rest)).1))).filterMap
      fun (k : ℕ) =>
      if 0 < (windowSamples (p :: rest) (p.1 + (k : ℚ))).length then
        some (p.1 + (k : ℚ) + 5, windowSamples (p :: rest) (p.1 + (k : ℚ)))
      else none

/-- `np.mean` of a list of reals (`sum / len`; on the paths modelled here the
list is never empty). -/
noncomputable def npMean (l : List ℝ) : ℝ := l.sum / l.length

/-- The per-window feature record built by `TremorProcessor.process`
(lines 91-97) and by the fallback block (lines 330-336).  `is_parkinsonian`
is the truth value of the source's boolean expression. -/
structure Features where
  rms : ℝ
  dominant_freq : ℝ
  tremor_power : ℝ
  tremor_index : ℝ
  is_parkinsonian : Prop

/-- Lines 320-336, the degraded fallback: subtract the window mean from the
raw samples, take the RMS of that AC component, estimate the tremor index as
`min(rms_ac / 0.2, 1.0)`, report `dominant_freq = 0.0` and the variance
(`rms_ac ** 2`) as `tremor_power`, and classify positive when the estimate
exceeds 0.3. -/
noncomputable def fallbackFeatures (ws : List ℝ) : Features :=
  let ac := ws.map fun v => v - npMean ws
  let rms_ac := Real.sqrt (npMean (ac.map fun v => v ^ 2))
  let estimated_index := min (rms_ac / 0.2) 1
  { rms := Real.sqrt (npMean (ws.map fun v => v ^ 2))
    dominant_freq := 0
    tremor_power := rms_ac ^ 2
    tremor_index := estimated_index
    is_parkinsonian := estimated_index > 0.3 }

/-- One pass of `scipy.signal.lfilter`'s direct-form difference equation
`a0 * y[n] = sum b[i] x[n-i] - sum a[j] y[n-j]`, carrying the past inputs and
outputs most-recent-first. -/
noncomputable def lfilterGo (b aTail : List ℝ) (a0 : ℝ)
    (xPast yPast : List ℝ) : List ℝ → List ℝ
  | [] => []
  | x :: rest =>
    let xs := x :: xPast
    let y := (((b.zip xs).map fun p => p.1 * p.2).sum -
              ((aTail.zip yPast).map fun p => p.1 * p.2).sum) / a0
    y :: lfilterGo b aTail a0 xs (y :: yPast) rest

/-- `scipy.signal.lfilter(b, a, x)` (zero initial state). -/
noncomputable def lfilter (b a x : List ℝ) : List ℝ :=
  lfilterGo b (a.drop 1) (a.headD 1) [] [] x

/-- `scipy.signal._arraytools.odd_ext(x, n)`: reflect the ends of the signal
oddly around its first and last value. -/
noncomputable def oddExt (n : ℕ) (x : List ℝ) : List ℝ :=
  let h := x.headD 0
  let l := x.getLastD 0
  let front := (((x.drop 1).take n).map fun v => 2 * h - v).reverse
  let back := (((x.reverse.drop 1).take n).map fun v => 2 * l - v)
  front ++ x ++ back

/-- The forward-backward pass of `scipy.signal.filtfilt` after its length
check: oddly extend by `padlen`, filter, reverse, filter, reverse, and trim
the padding.  (The steady-state initial conditions of the scipy
implementation are not modelled; no claim depends on the filtered values.) -/
noncomputable def filtfiltCore (b a : List ℝ) (padlen : ℕ) (x : List ℝ) :
    List ℝ :=
  let ext := oddExt padlen x
  let fwd := lfilter b a ext
  let bwd := (lfilter b a fwd.reverse).reverse
  (bwd.drop padlen).take x.length

/-- `scipy.signal.butter(order, wn, btype='low')`: raises unless the
normalized critical frequency satisfies `0 < Wn < 1`; otherwise returns the
designed coefficient arrays, each of length `order + 1`.  The transcendental
coefficient values are supplied by the abstract `design` argument. -/
noncomputable def scipyButter (design : ℕ → ℚ → List ℝ × List ℝ) (order : ℕ)
    (wn : ℚ) : Except String (List ℝ × List ℝ) :=
  if 0 < wn ∧ wn < 1 then .ok (design order wn)
  else .error "butter: digital filter critical frequencies must be 0 < Wn < 1"

/-- `scipy.signal.filtfilt(b, a, x)` with default arguments: the default pad
length is `3 * max(len(a), len(b))`, and the input must be strictly longer
than it. -/
noncomputable def scipyFiltfilt (b a : List ℝ) (x : List ℝ) :
    Except String (List ℝ) :=
  let padlen := 3 * max b.length a.length
  if x.length ≤ padlen then
    .error "filtfilt: the length of the input vector x must be greater than padlen"
  else .ok (filtfiltCore b a padlen x)

/-- `ButterworthLowPass.apply` (lines 25-30): `nyq = 0.5 * fs`,
`normal_cutoff = cutoff / nyq`, design the filter, run `filtfilt`.  A zero
sampling rate makes `normal_cutoff = 0` here, which is rejected exactly as
Python's `ZeroDivisionError` is (both escape `apply` as an exception). -/
noncomputable def butterworthApply (design : ℕ → ℚ → List ℝ × List ℝ)
    (cutoff fs : ℚ) (order : ℕ) (data : List ℝ) : Except String (List ℝ) := do
  let ba ← scipyButter design order (cutoff / ((1 / 2) * fs))
  scipyFiltfilt ba.1 ba.2 data

/-- `scipy.fft.rfftfreq(n, 1/fs)`: the `n/2 + 1` bin frequencies
`k * fs / n`. -/
def rfftFreqs (n : ℕ) (fs : ℚ) : List ℚ :=
  (List.range (n / 2 + 1)).map fun k => (k : ℚ) * fs / (n : ℚ)

/-- Magnitudes `np.abs(scipy.fft.rfft(x))` of the real-input discrete Fourier
transform. -/
noncomputable def rfftMag (x : List ℝ) : List ℝ :=
  (List.range (x.length / 2 + 1)).map fun k =>
    Complex.abs (∑ j ∈ Finset.range x.length,
      ((x.getD j 0 : ℝ) : ℂ) *
        Complex.exp (-2 * Real.pi * Complex.I * (j : ℂ) * (k : ℂ) / (x.length : ℂ)))

/-- `np.argmax` accumulator: first index of the maximum value. -/
noncomputable def npArgmaxGo (bestIdx : ℕ) (bestVal : ℝ) (i : ℕ) :
    List ℝ → ℕ
  | [] => bestIdx
  | v :: rest =>
    if bestVal < v then npArgmaxGo i v (i + 1) rest
    else npArgmaxGo bestIdx bestVal (i + 1) rest

/-- `np.argmax` over a list of reals (first index of the maximum; `numpy`
raises on an empty array, which cannot happen after a successful filter pass:
the guard on line 85 then reports `0`). -/
noncomputable def npArgmax : List ℝ → ℕ
  | [] => 0
  | v :: rest => npArgmaxGo 0 v 1 rest

/-- Lines 79-81: power in the tremor band, `sum(mags[mask] ** 2)` over the
non-DC bins whose frequency lies in the closed band, guarded by
`np.any(tremor_mask)`. -/
noncomputable def tremorBandPower (band : ℚ × ℚ) (freqsNoDc : List ℚ)
    (magsNoDc : List ℝ) : ℝ :=
  if freqsNoDc.any fun f => band.1 ≤ f && f ≤ band.2 then
    ((freqsNoDc.zip magsNoDc).map fun fm =>
      if band.1 ≤ fm.1 ∧ fm.1 ≤ band.2 then fm.2 ^ 2 else 0).sum
  else 0

/-- Line 88: total non-DC power `np.sum(fft_magnitude_no_dc ** 2)`. -/
noncomputable def totalPower (magsNoDc : List ℝ) : ℝ :=
  (magsNoDc.map fun m => m ^ 2).sum

/-- Lines 68-97 of `TremorProcessor.process` after the filter: RMS of the
filtered window, dominant non-DC frequency, band power, total power, tremor
index (`tremor_power / total_power` when positive, else `0`), and the
classification rule `band.lo <= dominant_freq <= band.hi and
tremor_index > 0.3`.  `filtered` is the filtered window and `mags` the rfft
magnitude array computed from it. -/
noncomputable def spectralRecord (fs : ℚ) (band : ℚ × ℚ) (filtered : List ℝ)
    (mags : List ℝ) : Features :=
  let freqsNoDc := (rfftFreqs filtered.length fs).drop 1
  let magsNoDc := mags.drop 1
  let dom_idx := npArgmax magsNoDc
  let dominant_freq : ℝ :=
    if h : dom_idx < freqsNoDc.length then ((freqsNoDc.get ⟨dom_idx, h⟩ : ℚ) : ℝ)
    else 0
  let tremor_power := tremorBandPower band freqsNoDc magsNoDc
  let total_power := totalPower magsNoDc
  let tremor_index := if total_power > 0 then tremor_power / total_power else 0
  { rms := Real.sqrt (npMean (filtered.map fun v => v ^ 2))
    dominant_freq := dominant_freq
    tremor_power := tremor_power
    tremor_index := tremor_index
    is_parkinsonian :=
      (band.1 : ℝ) ≤ dominant_freq ∧ dominant_freq ≤ (band.2 : ℝ) ∧
        tremor_index > 0.3 }

/-- `TremorProcessor.process` (lines 49-97): apply the Butterworth low-pass
filter (order 4), then extract the spectral features; a filter exception
escapes to the caller. -/
noncomputable def tremorProcess (design : ℕ → ℚ → List ℝ × List ℝ)
    (fs cutoff : ℚ) (data : List ℝ) : Except String Features := do
  let filtered ← butterworthApply design cutoff fs 4 data
  .ok (spectralRecord fs (3, 6) filtered (rfftMag filtered))

/-- Lines 309-336: per-window dispatch of the handler loop.  The fallback is
taken when the effective sampling rate is below 5 Hz, or when
`TremorProcessor.process` raises. -/
noncomputable def featDispatch (design : ℕ → ℚ → List ℝ × List ℝ)
    (fs cutoff : ℚ) (ws : List ℝ) : Features :=
  if fs < 5 then fallbackFeatures ws
  else
    match tremorProcess design fs cutoff ws with
    | .ok f => f
    | .error _ => fallbackFeatures ws

/-- One emitted analysis record (lines 341-356).  The source formats the
window-end timestamp as an ISO-8601 string; the formatting is injective on
the epoch seconds, so the record keeps the rational epoch-second value.  The
remaining stored attributes are the feature fields and a fixed retention
TTL. -/
structure AnalysisRecord where
  patient_id : String
  tsEnd : ℚ
  feats : Features

/-- Lines 300-359: one record per nonempty window position, keyed by the
window's end time and carrying the resolved patient id. -/
noncomputable def emitRecords (pid : String) (featF : List ℝ → Features)
    (series : List (ℚ × ℝ)) : List AnalysisRecord :=
  (windowSlices series).map fun p =>
    { patient_id := pid, tsEnd := p.1, feats := featF p.2 }

/-- The observable outcome of one handler invocation:  `insufficientData` is
the early return of line 249, `pipelineError` the 500 response of line 378,
and `success` carries the emitted records and the resolved patient id of the
200 response. -/
inductive HandlerResult where
  | insufficientData
  | pipelineError (msg : String)
  | success (records : List AnalysisRecord) (finalPid : String)

/-- `lambda_handler` (lines 112-376) after the DynamoDB query, as a function
of the queried items: resolve ownership, normalize, estimate the sampling
rate, stop when no samples were extracted, sort, adapt the filter cutoff,
resolve the final patient id, and emit one record per nonempty window. -/
noncomputable def runOnItems (eventPid : Option String)
    (lookup : LookupOutcome) (defaultFs : ℚ)
    (design : ℕ → ℚ → List ℝ × List ℝ) (items : List Item) : HandlerResult :=
  let pid0 := resolvePatient eventPid lookup
  match normalizeAll items with
  | .error m => .pipelineError m
  | .ok series =>
    let fsA := actualFs defaultFs series
    if series.isEmpty then .insufficientData
    else
      let sorted := sortByTs series
      let cutoff := effectiveCutoff fsA
      let finalPid := finalPatientId pid0 ((items.head?).bind Item.patient_id)
      .success (emitRecords finalPid (featDispatch design fsA cutoff) sorted)
        finalPid

/-- Lines 162-176: the sensor-data query returns the store's items for the
device whose millisecond timestamp lies in the requested second range
(inclusive on both ends), oldest first. -/
def itemsInRange (store : List Item) (startTs endTs : ℚ) : List Item :=
  store.filter fun it =>
    startTs * 1000 ≤ it.timestampMs && it.timestampMs ≤ endTs * 1000

/-- `lambda_handler` as invoked with a time range against a sample store. -/
noncomputable def runHandler (eventPid : Option String)
    (lookup : LookupOutcome) (defaultFs : ℚ)
    (design : ℕ → ℚ → List ℝ × List ℝ) (store : List Item)
    (startTs endTs : ℚ) : HandlerResult :=
  runOnItems eventPid lookup defaultFs design (itemsInRange store startTs endTs)

/-- The records of a handler outcome (empty unless it succeeded). -/
def handlerRecords : HandlerResult → List AnalysisRecord
  | .success records _ => records
  | _ => []

/-- The resolved patient id of a successful handler outcome. -/
def handlerPid : HandlerResult → Option String
  | .success _ pid => some pid
  | _ => none

/-- Whether a handler outcome is the 500 invocation failure of line 378. -/
def isPipelineError : HandlerResult → Bool
  | .pipelineError _ => true
  | _ => false

/-- The result store (`medusa-tremor-analysis`) keyed the way
`query_tremor_data.py` queries it: partition key `patient_id`, sort key the
window-end timestamp.  `put_item` upserts by that key. -/
def putRecord (store : String × ℚ → Option AnalysisRecord)
    (r : AnalysisRecord) : String × ℚ → Option AnalysisRecord :=
  fun k => if k = (r.patient_id, r.tsEnd) then some r else store k

/-- Lines 361-365: the batch write issues one keyed `put_item` per emitted
record. -/
def writeAll (rs : List AnalysisRecord)
    (store : String × ℚ → Option AnalysisRecord) :
    String × ℚ → Option AnalysisRecord :=
  rs.foldl putRecord store

/-! ### Basic facts about the spectral power sums -/

lemma sum_sq_nonneg (l : List ℝ) : 0 ≤ (l.map fun m => m ^ 2).sum := by
  apply List.sum_nonneg
  intro x hx
  simp only [List.mem_map] at hx
  obtain ⟨m, -, rfl⟩ := hx
  positivity

lemma zip_ite_sq_sum_le (band : ℚ × ℚ) (freqs : List ℚ) (ms : List ℝ) :
    ((freqs.zip ms).map fun fm =>
      if band.1 ≤ fm.1 ∧ fm.1 ≤ band.2 then fm.2 ^ 2 else 0).sum ≤
      (ms.map fun m => m ^ 2).sum := by
  induction freqs generalizing ms with
  | nil => simpa using sum_sq_nonneg ms
  | cons f ft ih =>
    cases ms with
    | nil => simp
    | cons m mt =>
      simp only [List.zip_cons_cons, List.map_cons, List.sum_cons]
      refine add_le_add ?_ (ih mt)
      split
      · exact le_rfl
      · positivity

lemma tremorBandPower_nonneg (band : ℚ × ℚ) (freqs : List ℚ) (ms : List ℝ) :
    0 ≤ tremorBandPower band freqs ms := by
  unfold tremorBandPower
  split
  · apply List.sum_nonneg
    intro x hx
    simp only [List.mem_map] at hx
    obtain ⟨fm, -, rfl⟩ := hx
    split
    · positivity
    · exact le_rfl
  · exact le_rfl

lemma tremorBandPower_le_totalPower (band : ℚ × ℚ) (freqs : List ℚ)
    (ms : List ℝ) : tremorBandPower band freqs ms ≤ totalPower ms := by
  unfold tremorBandPower totalPower
  split
  · exact zip_ite_sq_sum_le band freqs ms
  · exact sum_sq_nonneg ms

lemma spectralRecord_tremor_index (fs : ℚ) (band : ℚ × ℚ)
    (filtered mags : List ℝ) :
    (spectralRecord fs band filtered mags).tremor_index =
      if totalPower (mags.drop 1) > 0 then
        tremorBandPower band ((rfftFreqs filtered.length fs).drop 1)
            (mags.drop 1) / totalPower (mags.drop 1)
      else 0 := rfl

lemma spectralRecord_index_bounds (fs : ℚ) (band : ℚ × ℚ)
    (filtered mags : List ℝ) :
    0 ≤ (spectralRecord fs band filtered mags).tremor_index ∧
      (spectralRecord fs band filtered mags).tremor_index ≤ 1 := by
  rw [spectralRecord_tremor_index]
  split
  · rename_i h
    constructor
    · exact div_nonneg (tremorBandPower_nonneg _ _ _) (le_of_lt h)
    · exact (div_le_one h).mpr (tremorBandPower_le_totalPower _ _ _)
  · exact ⟨le_rfl, zero_le_one⟩

lemma fallbackFeatures_index_bounds (ws : List ℝ) :
    0 ≤ (fallbackFeatures ws).tremor_index ∧
      (fallbackFeatures ws).tremor_index ≤ 1 := by
  refine ⟨le_min ?_ zero_le_one, min_le_right _ _⟩
  positivity

lemma featDispatch_eq_spectral_or_fallback
    (design : ℕ → ℚ → List ℝ × List ℝ) (fs cutoff : ℚ) (ws : List ℝ) :
    (∃ filtered, butterworthApply design cutoff fs 4 ws = .ok filtered ∧
        featDispatch design fs cutoff ws =
          spectralRecord fs (3, 6) filtered (rfftMag filtered) ∧ ¬fs < 5) ∨
      featDispatch design fs cutoff ws = fallbackFeatures ws := by
  unfold featDispatch
  split
  · exact Or.inr rfl
  · unfold tremorProcess
    cases hba : butterworthApply design cutoff fs 4 ws with
    | error m => exact Or.inr rfl
    | ok filtered => exact Or.inl ⟨filtered, rfl, rfl, by assumption⟩

/-- C1: for every analysis window, the emitted `tremor_index` lies in
`[0, 1]` on both the spectral path and the degraded fallback path (whatever
the per-window dispatch selects), and on the spectral path it equals
`tremor_power / total_power` whenever `total_power > 0` and `0` when
`total_power = 0`; all quantities are total functions, so no division error
or NaN can arise. -/
theorem tremor_index_unit_interval :
    (∀ (design : ℕ → ℚ → List ℝ × List ℝ) (fs cutoff : ℚ) (ws : List ℝ),
        0 ≤ (featDispatch design fs cutoff ws).tremor_index ∧
          (featDispatch design fs cutoff ws).tremor_index ≤ 1) ∧
    (∀ (fs : ℚ) (band : ℚ × ℚ) (filtered mags : List ℝ),
        (spectralRecord fs band filtered mags).tremor_index =
          if totalPower (mags.drop 1) > 0 then
            tremorBandPower band ((rfftFreqs filtered.length fs).drop 1)
                (mags.drop 1) / totalPower (mags.drop 1)
          else 0) := by
  constructor
  · intro design fs cutoff ws
    rcases featDispatch_eq_spectral_or_fallback design fs cutoff ws with
      ⟨filtered, -, heq, -⟩ | heq
    · rw [heq]; exact spectralRecord_index_bounds _ _ _ _
    · rw [heq]; exact fallbackFeatures_index_bounds _
  · intro fs band filtered mags
    exact spectralRecord_tremor_index fs band filtered mags

/-- C2: on the spectral path, the features record is classified
`is_parkinsonian` exactly when the dominant frequency lies in the closed
band `[3, 6]` Hz and the tremor index exceeds `0.3`, for every record the
extractor can produce. -/
theorem classify_iff_band_and_index (fs : ℚ) (filtered mags : List ℝ) :
    (spectralRecord fs (3, 6) filtered mags).is_parkinsonian ↔
      (3 ≤ (spectralRecord fs (3, 6) filtered mags).dominant_freq ∧
        (spectralRecord fs (3, 6) filtered mags).dominant_freq ≤ 6 ∧
        (spectralRecord fs (3, 6) filtered mags).tremor_index > 0.3) := by
  have h : (spectralRecord fs (3, 6) filtered mags).is_parkinsonian ↔
      (((3 : ℚ) : ℝ) ≤ (spectralRecord fs (3, 6) filtered mags).dominant_freq ∧
        (spectralRecord fs (3, 6) filtered mags).dominant_freq ≤ ((6 : ℚ) : ℝ) ∧
        (spectralRecord fs (3, 6) filtered mags).tremor_index > 0.3) := Iff.rfl
  rw [h]
  norm_num

/-- C6: on the degraded fallback path the classifier subtracts the window
mean from the raw samples, takes the RMS of that AC component, estimates
the tremor index as `min(RMS_AC / 0.2, 1.0)`, and classifies
`is_parkinsonian` exactly when that estimate exceeds `0.3`. -/
theorem fallback_estimate_formula (ws : List ℝ) :
    (fallbackFeatures ws).tremor_index =
      min (Real.sqrt ((ws.map fun v => (v - ws.sum / ws.length) ^ 2).sum /
        ws.length) / 0.2) 1 ∧
    ((fallbackFeatures ws).is_parkinsonian ↔
      (fallbackFeatures ws).tremor_index > 0.3) := by
  constructor
  · show min (Real.sqrt (npMean ((ws.map fun v => v - npMean ws).map
        fun v => v ^ 2)) / 0.2) 1 = _
    simp only [npMean, List.map_map, Function.comp_def, List.length_map]
  · exact Iff.rfl

lemma fallback_tremor_power_eq_variance (ws : List ℝ) :
    (fallbackFeatures ws).tremor_power =
      npMean ((ws.map fun v => v - npMean ws).map fun v => v ^ 2) := by
  show Real.sqrt _ ^ 2 = _
  apply Real.sq_sqrt
  unfold npMean
  exact div_nonneg (sum_sq_nonneg _) (Nat.cast_nonneg _)

lemma npMean_pair_zero_one : npMean [(0 : ℝ), 1] = 1 / 2 := by
  norm_num [npMean]

lemma fallback_variance_pair :
    npMean ((([(0 : ℝ), 1].map fun v => v - npMean [(0 : ℝ), 1]).map
      fun v => v ^ 2)) = 1 / 4 := by
  rw [npMean_pair_zero_one]
  norm_num [npMean]

lemma sqrt_quarter : Real.sqrt (1 / 4) = 1 / 2 := by
  rw [show (1 / 4 : ℝ) = (1 / 2) ^ 2 by norm_num]
  exact Real.sqrt_sq (by norm_num)

/-- C10: every fallback record reports `dominant_freq = 0.0` and
`tremor_power` equal to the window variance (the squared AC RMS), and a
fallback record can be classified positive while its reported dominant
frequency lies outside the 3-6 Hz band (witnessed by the window
`[0, 1]`). -/
theorem fallback_zero_freq_and_variance :
    (∀ ws : List ℝ, (fallbackFeatures ws).dominant_freq = 0 ∧
        (fallbackFeatures ws).tremor_power =
          npMean ((ws.map fun v => v - npMean ws).map fun v => v ^ 2)) ∧
    (fallbackFeatures [(0 : ℝ), 1]).is_parkinsonian ∧
    ¬(3 ≤ (fallbackFeatures [(0 : ℝ), 1]).dominant_freq ∧
        (fallbackFeatures [(0 : ℝ), 1]).dominant_freq ≤ 6) := by
  refine ⟨fun ws => ⟨rfl, fallback_tremor_power_eq_variance ws⟩, ?_, ?_⟩
  · show min (Real.sqrt (npMean ((([(0 : ℝ), 1].map
        fun v => v - npMean [(0 : ℝ), 1]).map fun v => v ^ 2))) / 0.2) 1 > 0.3
    rw [fallback_variance_pair, sqrt_quarter]
    rw [show ((1 : ℝ) / 2) / 0.2 = 5 / 2 by norm_num]
    rw [min_eq_right (by norm_num : (1 : ℝ) ≤ 5 / 2)]
    norm_num
  · show ¬((3 : ℝ) ≤ 0 ∧ (0 : ℝ) ≤ 6)
    norm_num

/-! ### Characterizing the emitted window slices -/

lemma windowSlices_mem {α : Type} (p : ℚ × α) (rest : List (ℚ × α))
    (e : ℚ) (ws : List α) :
    (e, ws) ∈ windowSlices (p :: rest) ↔
      ∃ k : ℕ,
        k < windowCount p.1 (((p :: rest).getLast (List.cons_ne_nil p rest)).1) ∧
        e = p.1 + (k : ℚ) + 5 ∧
        ws = windowSamples (p :: rest) (p.1 + (k : ℚ)) ∧
        ws ≠ [] := by
  constructor
  · intro h
    obtain ⟨k, hk, hf⟩ := List.mem_filterMap.mp h
    rw [List.mem_range] at hk
    split at hf
    · rename_i hlen
      rw [Option.some.injEq, Prod.mk.injEq] at hf
      obtain ⟨he, hws⟩ := hf
      exact ⟨k, hk, he.symm, hws.symm,
        by rw [← hws]; exact List.ne_nil_of_length_pos hlen⟩
    · exact absurd hf (by simp)
  · rintro ⟨k, hk, he, hws, hne⟩
    apply List.mem_filterMap.mpr
    refine ⟨k, List.mem_range.mpr hk, ?_⟩
    rw [if_pos]
    · rw [← he, ← hws]
    · rw [← hws]
      exact List.length_pos.mpr hne

lemma windowSlices_sample_in_window {α : Type} (series : List (ℚ × α))
    (e : ℚ) (ws : List α) (h : (e, ws) ∈ windowSlices series) :
    ws ≠ [] ∧ ∃ q ∈ series, e - 5 ≤ q.1 ∧ q.1 < e := by
  cases series with
  | nil => exact absurd h (by simp [windowSlices])
  | cons p rest =>
    rw [windowSlices_mem] at h
    obtain ⟨k, -, he, hws, hne⟩ := h
    refine ⟨hne, ?_⟩
    have hfil : ((p :: rest).filter fun q =>
        p.1 + (k : ℚ) ≤ q.1 && q.1 < p.1 + (k : ℚ) + 5) ≠ [] := by
      intro hcon
      rw [windowSamples, hcon] at hws
      exact hne (by simpa using hws)
    obtain ⟨q, hq⟩ := List.exists_mem_of_ne_nil _ hfil
    rw [List.mem_filter] at hq
    obtain ⟨hqmem, hcond⟩ := hq
    rw [Bool.and_eq_true, decide_eq_true_eq, decide_eq_true_eq] at hcond
    refine ⟨q, hqmem, ?_, ?_⟩
    · rw [he]; linarith [hcond.1]
    · rw [he]; exact hcond.2

lemma gap_interior_skipped {α : Type} (l₁ l₂ : List (ℚ × α)) (a b : ℚ)
    (ma mb : α)
    (hsorted : (l₁ ++ (a, ma) :: (b, mb) :: l₂).Pairwise fun u v => u.1 ≤ v.1)
    (_hgap : 5 < b - a) (e : ℚ) (ws : List α)
    (hmem : (e, ws) ∈ windowSlices (l₁ ++ (a, ma) :: (b, mb) :: l₂)) :
    ¬(a + 5 < e ∧ e ≤ b) := by
  rintro ⟨h1, h2⟩
  obtain ⟨-, q, hqmem, hlo, hhi⟩ := windowSlices_sample_in_window _ _ _ hmem
  rw [List.pairwise_append] at hsorted
  obtain ⟨-, hpair2, hcross⟩ := hsorted
  rw [List.pairwise_cons] at hpair2
  obtain ⟨ha_all, hpair3⟩ := hpair2
  rw [List.pairwise_cons] at hpair3
  obtain ⟨hb_all, -⟩ := hpair3
  rcases List.mem_append.mp hqmem with hq1 | hq2
  · have hqa : q.1 ≤ a := hcross q hq1 (a, ma) (by simp)
    linarith
  · rcases List.mem_cons.mp hq2 with rfl | hq3
    · have hlo' : e - 5 ≤ a := hlo
      linarith
    · rcases List.mem_cons.mp hq3 with rfl | hq4
      · have hhi' : b < e := hhi
        linarith
      · have hqb : b ≤ q.1 := hb_all q hq4
        linarith

/-- C3 (amended): every pair emitted by the window scheduler has a nonempty
sample list, and for a gap between consecutive samples longer than the window
duration no emitted window-end time lies in the gap's interior beyond one
window length (`gap_start + 5 < e ≤ gap_end` is impossible); an emitted end
time can still lie in the first 5 seconds of the gap, since its window then
reaches back before the gap. -/
theorem scheduler_skips_empty_windows (α : Type) :
    (∀ (series : List (ℚ × α)) (e : ℚ) (ws : List α),
        (e, ws) ∈ windowSlices series → ws ≠ []) ∧
    (∀ (l₁ l₂ : List (ℚ × α)) (a b : ℚ) (ma mb : α) (e : ℚ) (ws : List α),
        (l₁ ++ (a, ma) :: (b, mb) :: l₂).Pairwise (fun u v => u.1 ≤ v.1) →
        5 < b - a →
        (e, ws) ∈ windowSlices (l₁ ++ (a, ma) :: (b, mb) :: l₂) →
        ¬(a + 5 < e ∧ e ≤ b)) := by
  constructor
  · intro series e ws h
    exact (windowSlices_sample_in_window series e ws h).1
  · intro l₁ l₂ a b ma mb e ws hs hg hm
    exact gap_interior_skipped l₁ l₂ a b ma mb hs hg e ws hm

lemma windowCount_0_20 : windowCount 0 20 = 17 := by
  norm_num [windowCount]
  rfl

lemma mem_slices_gap_end5 :
    ((5 : ℚ), [(0 : ℚ)]) ∈ windowSlices [((0 : ℚ), (0 : ℚ)), (20, 0)] := by
  rw [windowSlices_mem]
  refine ⟨0, ?_, by norm_num, ?_, by simp⟩
  · show 0 < windowCount 0 20
    rw [windowCount_0_20]
    norm_num
  · show [(0 : ℚ)] = windowSamples [((0 : ℚ), (0 : ℚ)), (20, 0)] (0 + ((0 : ℕ) : ℚ))
    norm_num [windowSamples, List.filter]

/-- C3 (counterexample): for the canonical series with samples at `t = 0` and
`t = 20` — a gap of 20 s, longer than the 5 s window — the scheduler emits an
`AnalysisResult` whose `end_time` 5 lies strictly inside the gap `(0, 20)`
(its window `[0, 5)` holds the sample at 0), refuting the claim that no
emitted result has its `end_time` inside such a gap. -/
theorem scheduler_emits_inside_gap :
    ((5 : ℚ), [(0 : ℚ)]) ∈ windowSlices [((0 : ℚ), (0 : ℚ)), (20, 0)] ∧
    5 < (20 : ℚ) - 0 ∧ (0 : ℚ) < 5 ∧ (5 : ℚ) < 20 :=
  ⟨mem_slices_gap_end5, by norm_num, by norm_num, by norm_num⟩

lemma mem_slices_gap_end21 :
    ((21 : ℚ), [(0 : ℚ)]) ∈ windowSlices [((0 : ℚ), (0 : ℚ)), (20, 0)] := by
  rw [windowSlices_mem]
  refine ⟨16, ?_, by norm_num, ?_, by simp⟩
  · show 16 < windowCount 0 20
    rw [windowCount_0_20]
    norm_num
  · show [(0 : ℚ)] = windowSamples [((0 : ℚ), (0 : ℚ)), (20, 0)] (0 + ((16 : ℕ) : ℚ))
    norm_num [windowSamples, List.filter]

theorem scheduler_skips_empty_windows_witness :
    (([((0 : ℚ), (0 : ℚ)), (20, 0)] : List (ℚ × ℚ)).Pairwise
        (fun u v => u.1 ≤ v.1)) ∧
    (5 : ℚ) < 20 - 0 ∧
    ([(0 : ℚ)] : List ℚ) ≠ [] ∧
    ¬((0 : ℚ) + 5 < 21 ∧ (21 : ℚ) ≤ 20) := by
  have hp : ([((0 : ℚ), (0 : ℚ)), (20, 0)] : List (ℚ × ℚ)).Pairwise
      (fun u v => u.1 ≤ v.1) := by
    norm_num [List.pairwise_cons]
  refine ⟨hp, by norm_num, ?_, ?_⟩
  · exact (scheduler_skips_empty_windows ℚ).1 _ 21 [(0 : ℚ)] mem_slices_gap_end21
  · exact (scheduler_skips_empty_windows ℚ).2 [] [] 0 20 0 0 21 [(0 : ℚ)]
      hp (by norm_num) mem_slices_gap_end21

/-- C9 (amended): when the configured 12 Hz cutoff reaches or exceeds half
the sampling rate (`fs <= 24`), the effective cutoff is `fs / 2.1` floored at
1 Hz; the configured cutoff is used unchanged exactly when `fs >= 25`, not
for every rate with `12 < 0.5 * fs` (the code's guard is `fs < 25`). -/
theorem cutoff_adaptation_threshold (fs : ℚ) :
    ((12 : ℚ) ≥ (1 / 2) * fs → effectiveCutoff fs = max (fs / (21 / 10)) 1) ∧
    (25 ≤ fs → effectiveCutoff fs = 12) := by
  constructor
  · intro h
    unfold effectiveCutoff
    rw [if_pos (by linarith)]
    show (if fs / (21 / 10) < 1 then (1 : ℚ) else fs / (21 / 10)) = _
    split
    · rename_i hlt
      exact (max_eq_right (le_of_lt hlt)).symm
    · rename_i hge
      exact (max_eq_left (not_lt.mp hge)).symm
  · intro h
    unfold effectiveCutoff
    rw [if_neg (not_lt.mpr h)]

theorem cutoff_adaptation_threshold_witness :
    ((12 : ℚ) ≥ (1 / 2) * 10 ∧ effectiveCutoff 10 = max (10 / (21 / 10)) 1) ∧
    ((25 : ℚ) ≤ 100 ∧ effectiveCutoff 100 = 12) :=
  ⟨⟨by norm_num, (cutoff_adaptation_threshold 10).1 (by norm_num)⟩,
    ⟨by norm_num, (cutoff_adaptation_threshold 100).2 (by norm_num)⟩⟩

/-- C9 (counterexample): at sampling rate 24.5 Hz the configured cutoff 12 is
strictly below half the rate (12.25), so by the claim it should be used
unchanged; the code nevertheless adapts it to `24.5 / 2.1 = 35/3 ≈ 11.67`. -/
theorem cutoff_adapted_below_nyquist_condition :
    effectiveCutoff (49 / 2) = 35 / 3 ∧ ¬((12 : ℚ) ≥ (1 / 2) * (49 / 2)) ∧
      (35 / 3 : ℚ) ≠ 12 := by
  refine ⟨?_, by norm_num, by norm_num⟩
  unfold effectiveCutoff
  rw [if_pos (by norm_num)]
  show (if (49 / 2 : ℚ) / (21 / 10) < 1 then (1 : ℚ) else (49 / 2) / (21 / 10)) = 35 / 3
  norm_num

/-! ### Length behaviour of the filtering stage -/

lemma lfilterGo_length (b aTail : List ℝ) (a0 : ℝ) (xPast yPast x : List ℝ) :
    (lfilterGo b aTail a0 xPast yPast x).length = x.length := by
  induction x generalizing xPast yPast with
  | nil => rfl
  | cons v rest ih => simp [lfilterGo, ih]

lemma lfilter_length (b a x : List ℝ) : (lfilter b a x).length = x.length :=
  lfilterGo_length b (a.drop 1) (a.headD 1) [] [] x

lemma oddExt_length (n : ℕ) (x : List ℝ) (h : n < x.length) :
    (oddExt n x).length = x.length + 2 * n := by
  unfold oddExt
  simp only [List.length_append, List.length_reverse, List.length_map,
    List.length_take, List.length_drop]
  omega

lemma filtfiltCore_length (b a : List ℝ) (padlen : ℕ) (x : List ℝ)
    (h : padlen < x.length) : (filtfiltCore b a padlen x).length = x.length := by
  unfold filtfiltCore
  simp only [List.length_take, List.length_drop, List.length_reverse,
    lfilter_length, oddExt_length padlen x h]
  omega

/-- C5 (amended): `ButterworthLowPass.apply` succeeds with a
length-preserving output exactly when the normalized cutoff is a valid
critical frequency and the input is strictly longer than scipy's default
`filtfilt` pad length `3 * (order + 1)` — i.e. at least 16 samples for the
default order 4, not the claimed `order * 3 = 12`; on any filter error the
handler's per-window dispatch routes the window to the degraded fallback. -/
theorem butterworth_apply_spec
    (design : ℕ → ℚ → List ℝ × List ℝ) (order : ℕ) (cutoff fs : ℚ)
    (data : List ℝ)
    (hb : (design order (cutoff / ((1 / 2) * fs))).1.length = order + 1)
    (ha : (design order (cutoff / ((1 / 2) * fs))).2.length = order + 1) :
    ((butterworthApply design cutoff fs order data).map List.length =
        .ok data.length ↔
      (0 < cutoff / ((1 / 2) * fs) ∧ cutoff / ((1 / 2) * fs) < 1 ∧
        3 * (order + 1) < data.length)) ∧
    (∀ (fs' cutoff' : ℚ) (ws : List ℝ) (e : String),
        butterworthApply design cutoff' fs' 4 ws = .error e →
        featDispatch design fs' cutoff' ws = fallbackFeatures ws) := by
  constructor
  · unfold butterworthApply scipyButter
    by_cases hw : 0 < cutoff / ((1 / 2) * fs) ∧ cutoff / ((1 / 2) * fs) < 1
    · rw [if_pos hw]
      show ((scipyFiltfilt (design order (cutoff / ((1 / 2) * fs))).1
          (design order (cutoff / ((1 / 2) * fs))).2 data).map List.length =
            .ok data.length ↔ _)
      unfold scipyFiltfilt
      rw [hb, ha, max_self]
      by_cases hlen : data.length ≤ 3 * (order + 1)
      · rw [if_pos hlen]
        simp only [Except.map]
        constructor
        · intro hcon
          exact absurd hcon (by simp)
        · rintro ⟨-, -, h3⟩
          omega
      · rw [if_neg hlen]
        simp only [Except.map, Except.ok.injEq]
        constructor
        · intro h
          exact ⟨hw.1, hw.2, by omega⟩
        · intro h
          exact filtfiltCore_length _ _ _ _ (by omega)
    · rw [if_neg hw]
      show ((Except.error
          "butter: digital filter critical frequencies must be 0 < Wn < 1" :
            Except String (List ℝ)).map List.length = .ok data.length ↔ _)
      simp only [Except.map]
      constructor
      · intro hcon
        exact absurd hcon (by simp)
      · intro h
        exact absurd ⟨h.1, h.2.1⟩ hw
  · intro fs' cutoff' ws e herr
    rcases featDispatch_eq_spectral_or_fallback design fs' cutoff' ws with
      ⟨filtered, hok, -, -⟩ | h
    · rw [herr] at hok
      exact absurd hok (by simp)
    · exact h

theorem butterworth_apply_spec_witness :
    ((List.replicate 5 (1 : ℝ)).length = 4 + 1) ∧
    (butterworthApply
        (fun o _ => (List.replicate (o + 1) (1 : ℝ),
          List.replicate (o + 1) (1 : ℝ))) 12 100 4
        (List.replicate 16 (0 : ℝ))).map List.length = .ok 16 := by
  constructor
  · simp
  · have h := (butterworth_apply_spec
        (fun o _ => (List.replicate (o + 1) (1 : ℝ),
          List.replicate (o + 1) (1 : ℝ))) 4 12 100
        (List.replicate 16 (0 : ℝ)) (by simp) (by simp)).1.mpr
      ⟨by norm_num, by norm_num, by simp⟩
    simpa using h

/-- C5 (counterexample): an input with exactly `order * 3 = 12` samples and a
valid cutoff — which the claim says must succeed — is rejected by
`filtfilt`'s length check (the input must exceed the default pad length
`3 * max(len(a), len(b)) = 15`). -/
theorem butterworth_rejects_twelve_samples :
    (0 : ℚ) < 12 / ((1 / 2) * 100) ∧ (12 : ℚ) / ((1 / 2) * 100) < 1 ∧
    (List.replicate 12 (0 : ℝ)).length = 4 * 3 ∧
    butterworthApply
        (fun o _ => (List.replicate (o + 1) (1 : ℝ),
          List.replicate (o + 1) (1 : ℝ))) 12 100 4
        (List.replicate 12 (0 : ℝ)) =
      .error "filtfilt: the length of the input vector x must be greater than padlen" := by
  refine ⟨by norm_num, by norm_num, by simp, ?_⟩
  unfold butterworthApply scipyButter
  rw [if_pos (by norm_num)]
  show scipyFiltfilt (List.replicate 5 (1 : ℝ)) (List.replicate 5 (1 : ℝ))
      (List.replicate 12 (0 : ℝ)) = _
  unfold scipyFiltfilt
  rw [if_pos (by simp)]

lemma normalizeAll_cons (it : Item) (rest : List Item) :
    normalizeAll (it :: rest) =
      (normalizeItem it).bind fun s =>
        (normalizeAll rest).bind fun r => .ok (s ++ r) := rfl

/-- C4 (amended): a record whose value fields are malformed in a way the
source catches (non-numeric magnitude, a non-numeric triplet value at the
point evaluation reaches it, missing/empty axis arrays) contributes no
samples, and dropping it leaves the normalization of the remaining batch
unchanged — processing continues, even when a later triplet key is also
missing, since the values are parsed left to right and the parse failure is
caught first; but a record whose `accel_x` parses as a number while
`accel_y` is missing (likewise `accel_z` after two numeric values) raises an
uncaught `KeyError` that aborts the whole batch, and no reason is logged for
any dropped record. -/
theorem normalize_drop_and_abort :
    (∀ (pre post : List Item) (bad : Item), normalizeItem bad = .ok [] →
        normalizeAll (pre ++ bad :: post) = normalizeAll (pre ++ post)) ∧
    (∀ it : Item, it.accel_x = some .bad →
        (it.magnitude = none ∨ it.magnitude = some .bad) →
        normalizeItem it = .ok []) ∧
    (∀ (it : Item) (x : ℚ), it.accel_x = some (.num x) → it.accel_y = none →
        (it.magnitude = none ∨ it.magnitude = some .bad) →
        normalizeItem it = .error "KeyError: accel_y") := by
  refine ⟨?_, ?_, ?_⟩
  · intro pre post bad hbad
    induction pre with
    | nil =>
      show normalizeAll (bad :: post) = normalizeAll post
      rw [normalizeAll_cons, hbad]
      cases h : normalizeAll post with
      | error m => simp [Except.bind]
      | ok r => simp [Except.bind]
    | cons p pres ih =>
      show normalizeAll (p :: (pres ++ bad :: post)) =
        normalizeAll (p :: (pres ++ post))
      rw [normalizeAll_cons, normalizeAll_cons, ih]
  · intro it h1 h3
    rcases h3 with hm | hm <;> simp [normalizeItem, h1, hm]
  · intro it x h1 h2 h3
    rcases h3 with hm | hm <;> simp [normalizeItem, h1, h2, hm]

/-- A well-formed magnitude-format record used in concrete scenarios. -/
def itemMag0 : Item where
  timestampMs := 0
  magnitude := some (.num 1)

/-- A record whose triplet values are present but one fails `float(...)`:
the source drops it and continues. -/
def itemBadVal : Item where
  timestampMs := 1000
  accel_x := some (.num 1)
  accel_y := some .bad
  accel_z := some (.num 1)

/-- A record whose numeric `accel_x` parses but whose `accel_y` is missing:
`item['accel_y']` raises an uncaught `KeyError`. -/
def itemNoY : Item where
  timestampMs := 1000
  accel_x := some (.num 1)

/-- A record whose `accel_x` fails `float(...)` and whose `accel_y` is also
missing: the caught parse failure drops the record before the missing key is
ever looked up. -/
def itemBadXNoY : Item where
  timestampMs := 1000
  accel_x := some .bad

theorem normalize_drop_and_abort_witness :
    normalizeItem itemBadVal = .ok [] ∧
    normalizeAll [itemMag0, itemBadVal] = normalizeAll [itemMag0] ∧
    itemBadXNoY.accel_x = some .bad ∧
    normalizeItem itemBadXNoY = .ok [] ∧
    itemNoY.accel_x = some (.num 1) ∧
    normalizeItem itemNoY = .error "KeyError: accel_y" := by
  refine ⟨rfl, ?_, rfl, ?_, rfl, ?_⟩
  · exact normalize_drop_and_abort.1 [itemMag0] [] itemBadVal rfl
  · exact normalize_drop_and_abort.2.1 itemBadXNoY rfl (Or.inl rfl)
  · exact normalize_drop_and_abort.2.2 itemNoY 1 rfl rfl (Or.inl rfl)

/-- C4 (counterexample): a batch holding one well-formed record and one
malformed record that misses the required numeric field `accel_y` is not
normalized by dropping the bad record — the uncaught `KeyError` aborts the
whole batch and the invocation returns the 500 error path. -/
theorem malformed_record_aborts_batch :
    normalizeAll [itemMag0, itemNoY] = .error "KeyError: accel_y" ∧
    isPipelineError (runOnItems none .noItem 100 (fun _ _ => ([], []))
        [itemMag0, itemNoY]) = true :=
  ⟨rfl, rfl⟩

/-! ### The handler's success path -/

lemma runOnItems_success (eventPid : Option String) (lookup : LookupOutcome)
    (defaultFs : ℚ) (design : ℕ → ℚ → List ℝ × List ℝ) (items : List Item)
    (series : List (ℚ × ℝ)) (hn : normalizeAll items = .ok series)
    (hne : series.isEmpty = false) :
    runOnItems eventPid lookup defaultFs design items =
      .success (emitRecords
          (finalPatientId (resolvePatient eventPid lookup)
            ((items.head?).bind Item.patient_id))
          (featDispatch design (actualFs defaultFs series)
            (effectiveCutoff (actualFs defaultFs series)))
          (sortByTs series))
        (finalPatientId (resolvePatient eventPid lookup)
          ((items.head?).bind Item.patient_id)) := by
  unfold runOnItems
  rw [hn]
  simp [hne]

lemma emitRecords_patient (pid : String) (featF : List ℝ → Features)
    (series : List (ℚ × ℝ)) :
    ∀ r ∈ emitRecords pid featF series, r.patient_id = pid := by
  intro r hr
  simp only [emitRecords, List.mem_map] at hr
  obtain ⟨p, -, rfl⟩ := hr
  rfl

lemma windowCount_singleton (t : ℚ) : windowCount t t = 0 := by
  unfold windowCount
  rw [if_pos (by linarith)]

lemma windowSlices_singleton {α : Type} (p : ℚ × α) : windowSlices [p] = [] := by
  unfold windowSlices
  show (List.range (windowCount p.1 p.1)).filterMap _ = []
  rw [windowCount_singleton]
  rfl

/-- C7 (amended): when the event carries no patient id, ownership resolution
finds none (no registry item, a registry item without `patientId`, or a
lookup failure), and the first queried raw item carries no `patient_id`
attribute, every emitted record and the reported patient id are
`"UNASSIGNED"`; and a lookup failure behaves exactly like an absent
assignment — it never turns the invocation into a failure.  When the first
raw item does carry a (possibly outdated) `patient_id`, that value is used
instead of `"UNASSIGNED"`. -/
theorem unassigned_on_missing_ownership :
    (∀ (eventPid : Option String) (lookup : LookupOutcome) (defaultFs : ℚ)
        (design : ℕ → ℚ → List ℝ × List ℝ) (items : List Item)
        (recs : List AnalysisRecord) (fp : String),
        eventPid = none →
        (lookup = .noItem ∨ lookup = .error ∨ lookup = .item none) →
        (items.head?).bind Item.patient_id = none →
        runOnItems eventPid lookup defaultFs design items = .success recs fp →
        fp = "UNASSIGNED" ∧ ∀ r ∈ recs, r.patient_id = "UNASSIGNED") ∧
    (∀ (eventPid : Option String) (defaultFs : ℚ)
        (design : ℕ → ℚ → List ℝ × List ℝ) (items : List Item),
        runOnItems eventPid .error defaultFs design items =
          runOnItems eventPid .noItem defaultFs design items) := by
  constructor
  · intro eventPid lookup defaultFs design items recs fp hev hlook hfirst hrun
    subst hev
    have hpid0 : resolvePatient none lookup = none := by
      rcases hlook with rfl | rfl | rfl <;> rfl
    have hfp : finalPatientId (resolvePatient none lookup)
        ((items.head?).bind Item.patient_id) = "UNASSIGNED" := by
      rw [hpid0, hfirst]
      rfl
    unfold runOnItems at hrun
    cases hn : normalizeAll items with
    | error m => rw [hn] at hrun; exact absurd hrun (by simp)
    | ok series =>
      rw [hn] at hrun
      by_cases hemp : series.isEmpty
      · simp only [hemp, if_true] at hrun
        exact absurd hrun (by simp)
      · simp only [hemp, if_false, Bool.false_eq_true] at hrun
        rw [HandlerResult.success.injEq] at hrun
        obtain ⟨hrecs, hfp'⟩ := hrun
        refine ⟨by rw [← hfp', hfp], ?_⟩
        intro r hr
        rw [← hrecs] at hr
        rw [emitRecords_patient _ _ _ r hr, hfp]
  · intro eventPid defaultFs design items
    unfold runOnItems
    have h : resolvePatient eventPid .error = resolvePatient eventPid .noItem := by
      unfold resolvePatient
      split <;> rfl
    rw [h]

/-- A second well-formed magnitude record, 5 s after `itemMag0`. -/
def itemMag5000 : Item where
  timestampMs := 5000
  magnitude := some (.num 1)

lemma normalize_two_mag_items :
    normalizeAll [itemMag0, itemMag5000] =
      .ok [((0 : ℚ), ((1 : ℚ) : ℝ)), ((5 : ℚ), ((1 : ℚ) : ℝ))] := by
  have h0 : (0 : ℚ) / 1000 = 0 := by norm_num
  have h5 : (5000 : ℚ) / 1000 = 5 := by norm_num
  show Except.ok [((0 : ℚ) / 1000, ((1 : ℚ) : ℝ)),
    ((5000 : ℚ) / 1000, ((1 : ℚ) : ℝ))] = _
  rw [h0, h5]

theorem unassigned_on_missing_ownership_witness :
    ([itemMag0, itemMag5000].head?.bind Item.patient_id = none) ∧
    runOnItems none .noItem 100 (fun _ _ => ([], [])) [itemMag0, itemMag5000] =
      .success (handlerRecords (runOnItems none .noItem 100
        (fun _ _ => ([], [])) [itemMag0, itemMag5000])) "UNASSIGNED" ∧
    ("UNASSIGNED" : String) = "UNASSIGNED" ∧
    (∀ r ∈ handlerRecords (runOnItems none .noItem 100 (fun _ _ => ([], []))
        [itemMag0, itemMag5000]), r.patient_id = "UNASSIGNED") := by
  have hrun := runOnItems_success none .noItem 100 (fun _ _ => ([], []))
    [itemMag0, itemMag5000] [((0 : ℚ), ((1 : ℚ) : ℝ)), ((5 : ℚ), ((1 : ℚ) : ℝ))]
    normalize_two_mag_items rfl
  have hrun' : runOnItems none .noItem 100 (fun _ _ => ([], []))
      [itemMag0, itemMag5000] =
      .success (handlerRecords (runOnItems none .noItem 100
        (fun _ _ => ([], [])) [itemMag0, itemMag5000])) "UNASSIGNED" := by
    rw [hrun]
    rfl
  have hconc := (unassigned_on_missing_ownership.1 none .noItem 100
    (fun _ _ => ([], [])) [itemMag0, itemMag5000]
    (handlerRecords (runOnItems none .noItem 100 (fun _ _ => ([], []))
      [itemMag0, itemMag5000])) "UNASSIGNED" rfl (Or.inl rfl) rfl hrun')
  exact ⟨rfl, hrun', hconc.1, hconc.2⟩

/-- A magnitude record tagged with an outdated `patient_id` attribute. -/
def itemOld0 : Item where
  timestampMs := 0
  magnitude := some (.num 1)
  patient_id := some "P-OLD"

/-- A second outdated-tagged magnitude record, 5 s later. -/
def itemOld5 : Item where
  timestampMs := 5000
  magnitude := some (.num 1)
  patient_id := some "P-OLD"

lemma normalize_two_old_items :
    normalizeAll [itemOld0, itemOld5] =
      .ok [((0 : ℚ), ((1 : ℚ) : ℝ)), ((5 : ℚ), ((1 : ℚ) : ℝ))] := by
  have h0 : (0 : ℚ) / 1000 = 0 := by norm_num
  have h5 : (5000 : ℚ) / 1000 = 5 := by norm_num
  show Except.ok [((0 : ℚ) / 1000, ((1 : ℚ) : ℝ)),
    ((5000 : ℚ) / 1000, ((1 : ℚ) : ℝ))] = _
  rw [h0, h5]

lemma sort_two_0_5 :
    sortByTs [((0 : ℚ), ((1 : ℚ) : ℝ)), ((5 : ℚ), ((1 : ℚ) : ℝ))] =
      [((0 : ℚ), ((1 : ℚ) : ℝ)), ((5 : ℚ), ((1 : ℚ) : ℝ))] := by
  unfold sortByTs sortByTs sortByTs insertByTs insertByTs
  norm_num

lemma windowCount_0_5 : windowCount 0 5 = 2 := by
  norm_num [windowCount]

lemma windowSlices_two_0_5_ne_nil :
    windowSlices [((0 : ℚ), ((1 : ℚ) : ℝ)), ((5 : ℚ), ((1 : ℚ) : ℝ))] ≠ [] := by
  have hmem : ((5 : ℚ), [((1 : ℚ) : ℝ)]) ∈
      windowSlices [((0 : ℚ), ((1 : ℚ) : ℝ)), ((5 : ℚ), ((1 : ℚ) : ℝ))] := by
    rw [windowSlices_mem]
    refine ⟨0, ?_, by norm_num, ?_, by simp⟩
    · show 0 < windowCount 0 5
      rw [windowCount_0_5]
      norm_num
    · show [((1 : ℚ) : ℝ)] = windowSamples _ ((0 : ℚ) + ((0 : ℕ) : ℚ))
      norm_num [windowSamples, List.filter]
  exact List.ne_nil_of_mem hmem

/-- C7 (counterexample): a device with no ownership assignment (registry has
no item for it) whose raw samples carry an outdated `patient_id` attribute:
the handler succeeds and emits at least one record, but every emitted record
and the reported patient id are the stale `"P-OLD"`, not `"UNASSIGNED"`. -/
theorem stale_patient_id_used_when_unowned :
    handlerPid (runOnItems none .noItem 100 (fun _ _ => ([], []))
        [itemOld0, itemOld5]) = some "P-OLD" ∧
    handlerRecords (runOnItems none .noItem 100 (fun _ _ => ([], []))
        [itemOld0, itemOld5]) ≠ [] ∧
    (handlerRecords (runOnItems none .noItem 100 (fun _ _ => ([], []))
        [itemOld0, itemOld5])).all
      (fun r => r.patient_id == "P-OLD") = true := by
  have hrun := runOnItems_success none .noItem 100 (fun _ _ => ([], []))
    [itemOld0, itemOld5] [((0 : ℚ), ((1 : ℚ) : ℝ)), ((5 : ℚ), ((1 : ℚ) : ℝ))]
    normalize_two_old_items rfl
  refine ⟨by rw [hrun]; rfl, ?_, ?_⟩
  · rw [hrun]
    show emitRecords "P-OLD" _ _ ≠ []
    rw [sort_two_0_5]
    intro hcon
    have := windowSlices_two_0_5_ne_nil
    unfold emitRecords at hcon
    exact this (List.map_eq_nil_iff.mp hcon)
  · rw [hrun]
    show (emitRecords "P-OLD" _ _).all _ = true
    rw [List.all_eq_true]
    intro r hr
    have := emitRecords_patient _ _ _ r hr
    rw [this]
    rfl

/-! ### Keyed upserts into the result store -/

lemma writeAll_apply (rs : List AnalysisRecord)
    (store : String × ℚ → Option AnalysisRecord) (k : String × ℚ) :
    writeAll rs store k =
      match rs.reverse.find? (fun r => decide (k = (r.patient_id, r.tsEnd))) with
      | some r => some r
      | none => store k := by
  induction rs generalizing store with
  | nil => rfl
  | cons r rest ih =>
    show writeAll rest (putRecord store r) k = _
    rw [ih]
    rw [List.reverse_cons, List.find?_append]
    cases h : rest.reverse.find? (fun r => decide (k = (r.patient_id, r.tsEnd))) with
    | some x => rfl
    | none =>
      show putRecord store r k = _
      unfold putRecord
      rcases eq_or_ne k (r.patient_id, r.tsEnd) with he | he
      · rw [if_pos he]
        simp [List.find?, he]
      · rw [if_neg he]
        simp [List.find?, he]

/-- C8 (amended): the handler is a pure function of the items its query
returns, so two runs whose (possibly different, overlapping) time ranges
select the identical raw items produce identical records; and the result
store is written with keyed upserts, so writing the same record batch again
leaves the store unchanged — a duplicate computation for a window overwrites
rather than duplicates. -/
theorem rerun_same_items_idempotent :
    (∀ (eventPid : Option String) (lookup : LookupOutcome) (defaultFs : ℚ)
        (design : ℕ → ℚ → List ℝ × List ℝ) (store : List Item)
        (s1 e1 s2 e2 : ℚ),
        itemsInRange store s1 e1 = itemsInRange store s2 e2 →
        runHandler eventPid lookup defaultFs design store s1 e1 =
          runHandler eventPid lookup defaultFs design store s2 e2) ∧
    (∀ (rs : List AnalysisRecord)
        (store : String × ℚ → Option AnalysisRecord),
        writeAll rs (writeAll rs store) = writeAll rs store) := by
  constructor
  · intro eventPid lookup defaultFs design store s1 e1 s2 e2 h
    unfold runHandler
    rw [h]
  · intro rs store
    funext k
    rw [writeAll_apply, writeAll_apply]
    cases h : rs.reverse.find? (fun r => decide (k = (r.patient_id, r.tsEnd))) with
    | some x => rfl
    | none => rfl

theorem rerun_same_items_idempotent_witness :
    itemsInRange [itemMag5000] 0 10 = itemsInRange [itemMag5000] 4 6 ∧
    runHandler none .noItem 100 (fun _ _ => ([], [])) [itemMag5000] 0 10 =
      runHandler none .noItem 100 (fun _ _ => ([], [])) [itemMag5000] 4 6 ∧
    writeAll [⟨"P", 5, fallbackFeatures []⟩]
        (writeAll [⟨"P", 5, fallbackFeatures []⟩] fun _ => none) =
      writeAll [⟨"P", 5, fallbackFeatures []⟩] fun _ => none := by
  have hitems : itemsInRange [itemMag5000] 0 10 = itemsInRange [itemMag5000] 4 6 := by
    norm_num [itemsInRange, List.filter, itemMag5000]
  exact ⟨hitems,
    rerun_same_items_idempotent.1 none .noItem 100 (fun _ _ => ([], []))
      [itemMag5000] 0 10 4 6 hitems,
    rerun_same_items_idempotent.2 [⟨"P", 5, fallbackFeatures []⟩] (fun _ => none)⟩

lemma emitRecords_tsEnds (pid : String) (featF : List ℝ → Features)
    (series : List (ℚ × ℝ)) :
    (emitRecords pid featF series).map AnalysisRecord.tsEnd =
      (windowSlices series).map Prod.fst := by
  unfold emitRecords
  rw [List.map_map]
  rfl

/-- A magnitude-format record at a given millisecond timestamp. -/
def magItemAt (ms : ℚ) : Item where
  timestampMs := ms
  magnitude := some (.num 1)

/-- A store with one 1-g magnitude sample every 2.5 s from 0 s to 10 s. -/
def store5 : List Item :=
  [magItemAt 0, magItemAt 2500, magItemAt 5000, magItemAt 7500, magItemAt 10000]

lemma store5_range_0_10 : itemsInRange store5 0 10 = store5 := by
  norm_num [itemsInRange, store5, List.filter, magItemAt]

lemma store5_range_2_10 : itemsInRange store5 2 10 =
    [magItemAt 2500, magItemAt 5000, magItemAt 7500, magItemAt 10000] := by
  norm_num [itemsInRange, store5, List.filter, magItemAt]

lemma store5_norm_all :
    normalizeAll store5 =
      .ok [((0 : ℚ), ((1 : ℚ) : ℝ)), ((5 / 2 : ℚ), ((1 : ℚ) : ℝ)),
        ((5 : ℚ), ((1 : ℚ) : ℝ)), ((15 / 2 : ℚ), ((1 : ℚ) : ℝ)),
        ((10 : ℚ), ((1 : ℚ) : ℝ))] := by
  show Except.ok [((0 : ℚ) / 1000, ((1 : ℚ) : ℝ)),
    ((2500 : ℚ) / 1000, ((1 : ℚ) : ℝ)), ((5000 : ℚ) / 1000, ((1 : ℚ) : ℝ)),
    ((7500 : ℚ) / 1000, ((1 : ℚ) : ℝ)),
    ((10000 : ℚ) / 1000, ((1 : ℚ) : ℝ))] = _
  norm_num

lemma store5_norm_tail :
    normalizeAll [magItemAt 2500, magItemAt 5000, magItemAt 7500,
        magItemAt 10000] =
      .ok [((5 / 2 : ℚ), ((1 : ℚ) : ℝ)), ((5 : ℚ), ((1 : ℚ) : ℝ)),
        ((15 / 2 : ℚ), ((1 : ℚ) : ℝ)), ((10 : ℚ), ((1 : ℚ) : ℝ))] := by
  show Except.ok [((2500 : ℚ) / 1000, ((1 : ℚ) : ℝ)),
    ((5000 : ℚ) / 1000, ((1 : ℚ) : ℝ)), ((7500 : ℚ) / 1000, ((1 : ℚ) : ℝ)),
    ((10000 : ℚ) / 1000, ((1 : ℚ) : ℝ))] = _
  norm_num

lemma sort_series_A :
    sortByTs [((0 : ℚ), ((1 : ℚ) : ℝ)), ((5 / 2 : ℚ), ((1 : ℚ) : ℝ)),
        ((5 : ℚ), ((1 : ℚ) : ℝ)), ((15 / 2 : ℚ), ((1 : ℚ) : ℝ)),
        ((10 : ℚ), ((1 : ℚ) : ℝ))] =
      [((0 : ℚ), ((1 : ℚ) : ℝ)), ((5 / 2 : ℚ), ((1 : ℚ) : ℝ)),
        ((5 : ℚ), ((1 : ℚ) : ℝ)), ((15 / 2 : ℚ), ((1 : ℚ) : ℝ)),
        ((10 : ℚ), ((1 : ℚ) : ℝ))] := by
  norm_num [sortByTs, insertByTs]

lemma sort_series_B :
    sortByTs [((5 / 2 : ℚ), ((1 : ℚ) : ℝ)), ((5 : ℚ), ((1 : ℚ) : ℝ)),
        ((15 / 2 : ℚ), ((1 : ℚ) : ℝ)), ((10 : ℚ), ((1 : ℚ) : ℝ))] =
      [((5 / 2 : ℚ), ((1 : ℚ) : ℝ)), ((5 : ℚ), ((1 : ℚ) : ℝ)),
        ((15 / 2 : ℚ), ((1 : ℚ) : ℝ)), ((10 : ℚ), ((1 : ℚ) : ℝ))] := by
  norm_num [sortByTs, insertByTs]

lemma windowCount_B : windowCount (5 / 2) 10 = 4 := by
  norm_num [windowCount]
  rfl

lemma mem_slices_B :
    ((15 / 2 : ℚ), [((1 : ℚ) : ℝ), ((1 : ℚ) : ℝ)]) ∈
      windowSlices [((5 / 2 : ℚ), ((1 : ℚ) : ℝ)), ((5 : ℚ), ((1 : ℚ) : ℝ)),
        ((15 / 2 : ℚ), ((1 : ℚ) : ℝ)), ((10 : ℚ), ((1 : ℚ) : ℝ))] := by
  rw [windowSlices_mem]
  refine ⟨0, ?_, by norm_num, ?_, by simp⟩
  · show 0 < windowCount (5 / 2) 10
    rw [windowCount_B]
    norm_num
  · show [((1 : ℚ) : ℝ), ((1 : ℚ) : ℝ)] =
      windowSamples _ ((5 / 2 : ℚ) + ((0 : ℕ) : ℚ))
    norm_num [windowSamples, List.filter]

/-- C8 (counterexample): two runs over the same stored samples with
overlapping ranges `[0, 10]` and `[2, 10]` s.  The window `[2.5, 7.5)` is
covered by both ranges, and the second run emits a record with
`end_time = 7.5` for it; the first run emits no record at all with that
timestamp (its grid is anchored at its own first sample, 0 s), so the two
runs do not produce the same `(timestamp, ...)` value sets for the windows
they both cover. -/
theorem overlapping_reruns_disagree_on_shared_window :
    (15 / 2 : ℚ) ∈ (handlerRecords (runHandler none .noItem 100
        (fun _ _ => ([], [])) store5 2 10)).map AnalysisRecord.tsEnd ∧
    (15 / 2 : ℚ) ∉ (handlerRecords (runHandler none .noItem 100
        (fun _ _ => ([], [])) store5 0 10)).map AnalysisRecord.tsEnd ∧
    (0 : ℚ) ≤ 15 / 2 - 5 ∧ (2 : ℚ) ≤ 15 / 2 - 5 ∧ (15 / 2 : ℚ) ≤ 10 := by
  have hB := runOnItems_success none .noItem 100 (fun _ _ => ([], []))
    [magItemAt 2500, magItemAt 5000, magItemAt 7500, magItemAt 10000]
    [((5 / 2 : ℚ), ((1 : ℚ) : ℝ)), ((5 : ℚ), ((1 : ℚ) : ℝ)),
      ((15 / 2 : ℚ), ((1 : ℚ) : ℝ)), ((10 : ℚ), ((1 : ℚ) : ℝ))]
    store5_norm_tail rfl
  have hA := runOnItems_success none .noItem 100 (fun _ _ => ([], []))
    store5
    [((0 : ℚ), ((1 : ℚ) : ℝ)), ((5 / 2 : ℚ), ((1 : ℚ) : ℝ)),
      ((5 : ℚ), ((1 : ℚ) : ℝ)), ((15 / 2 : ℚ), ((1 : ℚ) : ℝ)),
      ((10 : ℚ), ((1 : ℚ) : ℝ))]
    store5_norm_all rfl
  refine ⟨?_, ?_, by norm_num, by norm_num, by norm_num⟩
  · show (15 / 2 : ℚ) ∈ (handlerRecords (runOnItems none .noItem 100
        (fun _ _ => ([], [])) (itemsInRange store5 2 10))).map
        AnalysisRecord.tsEnd
    rw [store5_range_2_10, hB]
    show (15 / 2 : ℚ) ∈ (emitRecords _ _ _).map AnalysisRecord.tsEnd
    rw [emitRecords_tsEnds, sort_series_B]
    exact List.mem_map.mpr ⟨_, mem_slices_B, rfl⟩
  · intro hmem
    rw [show runHandler none .noItem 100 (fun _ _ => ([], [])) store5 0 10 =
        runOnItems none .noItem 100 (fun _ _ => ([], [])) store5 from by
      unfold runHandler
      rw [store5_range_0_10]] at hmem
    rw [hA] at hmem
    simp only [handlerRecords] at hmem
    rw [emitRecords_tsEnds, sort_series_A] at hmem
    obtain ⟨⟨e, ws⟩, hp, hfst⟩ := List.mem_map.mp hmem
    rw [windowSlices_mem] at hp
    obtain ⟨k, -, he, -, -⟩ := hp
    have he' : e = 15 / 2 := hfst
    have hk : (k : ℚ) = 5 / 2 := by
      rw [he'] at he
      have h0 : ((0 : ℚ), ((1 : ℚ) : ℝ)).1 = (0 : ℚ) := rfl
      rw [h0] at he
      linarith
    have h2 : ((2 * k : ℕ) : ℚ) = 5 := by push_cast; linarith
    have h3 : (2 * k : ℕ) = 5 := by exact_mod_cast h2
    omega
